import Mathlib

/-!
Verification of the macro-api booking core (bbang93/macro-api).

Shallow embedding of the Python sources:
 * `src/api/services/job_service.py` — job engine: seat policy, standby
   gating, status state machine, cancellation, one-shot re-login;
 * `src/api/core/security.py`       — credential vault (combine/split around
   a NUL separator, Fernet modelled as an abstract invertible cipher);
 * `src/api/core/session.py`        — session registry (lookup, expiry,
   destruction);
 * `src/api/models/schemas.py`      — passenger-count validation.

Python dicts are modelled as association lists with unique keys, datetimes
as integers, and machine-level concerns (asyncio scheduling) as an explicit
step relation whose atomic blocks are the code regions between suspension
points.
-/

namespace MacroApi

/-- Seat preference options, from `src/api/models/enums.py` (`SeatType`). -/
inductive SeatType where
  | GENERAL_FIRST
  | GENERAL_ONLY
  | SPECIAL_FIRST
  | SPECIAL_ONLY
deriving DecidableEq

/-- Macro job status, from `src/api/models/enums.py` (`JobStatus`). -/
inductive JobStatus where
  | pending
  | running
  | success
  | failed
  | cancelled
deriving DecidableEq

/-- A terminal job status (`SUCCESS`, `FAILED`, `CANCELLED`). -/
def isTerminal : JobStatus → Bool
  | .success => true
  | .failed => true
  | .cancelled => true
  | _ => false

/-- The seat-availability fields of one searched train, from the dict built
in `RailService.search_trains` and consumed by `_run_booking_loop`. -/
structure TrainSeats where
  general_seat_available : Bool
  special_seat_available : Bool
  standby_available : Bool
deriving DecidableEq

/-- Embeds `job_service.py` lines 341-351: the sequential `can_reserve`
updates of `JobService._run_booking_loop`.  Each `let` mirrors one Python
`if`, keeping the previous value when the guard is false. -/
def canReserveSeat (st : SeatType) (t : TrainSeats) : Bool :=
  let c0 := false
  let c1 := if st = .GENERAL_FIRST ∨ st = .GENERAL_ONLY
            then t.general_seat_available else c0
  let c2 := if !c1 ∧ (st = .SPECIAL_FIRST ∨ st = .SPECIAL_ONLY)
            then t.special_seat_available else c1
  let c3 := if !c2 ∧ st = .GENERAL_FIRST
            then t.special_seat_available else c2
  let c4 := if !c3 ∧ st = .SPECIAL_FIRST
            then t.general_seat_available else c3
  c4

/-- What `_run_booking_loop` does with one selected train index. -/
inductive IndexAction where
  | reserveCall
  | standbyCall
  | skip
deriving DecidableEq

/-- Embeds `job_service.py` lines 341-361: the per-index decision of
`_run_booking_loop` — `can_reserve` from the seat policy, `can_standby`
only when no direct seat and `use_standby` is set, `continue` when
neither, and the `is_standby` choice between the reserve and the
standby-reserve provider call. -/
def indexAction (st : SeatType) (useStandby : Bool) (t : TrainSeats) : IndexAction :=
  let canReserve := canReserveSeat st t
  let canStandby := if !canReserve ∧ useStandby then t.standby_available else false
  if !canReserve ∧ !canStandby then .skip
  else
    let isStandby := !canReserve ∧ canStandby
    if isStandby then .standbyCall else .reserveCall

/-- C1: reservability under the seat-type policy is exactly: GENERAL_ONLY
iff a general seat, SPECIAL_ONLY iff a special seat, GENERAL_FIRST iff
general else special, SPECIAL_FIRST iff special else general; and a train
with only special seats is reservable for GENERAL_FIRST but not for
GENERAL_ONLY. -/
theorem seat_policy_spec :
    (∀ t : TrainSeats, canReserveSeat .GENERAL_ONLY t = t.general_seat_available)
    ∧ (∀ t : TrainSeats, canReserveSeat .SPECIAL_ONLY t = t.special_seat_available)
    ∧ (∀ t : TrainSeats,
        canReserveSeat .GENERAL_FIRST t
          = (t.general_seat_available || t.special_seat_available))
    ∧ (∀ t : TrainSeats,
        canReserveSeat .SPECIAL_FIRST t
          = (t.special_seat_available || t.general_seat_available))
    ∧ canReserveSeat .GENERAL_FIRST ⟨false, true, false⟩ = true
    ∧ canReserveSeat .GENERAL_ONLY ⟨false, true, false⟩ = false := by
  refine ⟨?_, ?_, ?_, ?_, by decide, by decide⟩ <;>
    · rintro ⟨g, s, w⟩
      cases g <;> cases s <;> rfl

/-- C2: a standby call is made for an index exactly when no direct seat is
reservable under the policy, the job opted in (`use_standby`), and the
train offers standby; with `use_standby = false` and no direct seat the
index is skipped (neither a reserve nor a standby call). -/
theorem standby_gating_spec :
    (∀ (st : SeatType) (u : Bool) (t : TrainSeats),
        indexAction st u t = .standbyCall
          ↔ (canReserveSeat st t = false ∧ u = true ∧ t.standby_available = true))
    ∧ (∀ (st : SeatType) (t : TrainSeats),
        canReserveSeat st t = false → indexAction st false t = .skip) := by
  constructor
  · rintro st u ⟨g, s, w⟩
    cases hc : canReserveSeat st ⟨g, s, w⟩ <;> cases u <;> cases w <;>
      simp [indexAction, hc]
  · intro st t h
    simp [indexAction, h]

/-- C2 witness: a train with no direct seats but standby available is
skipped when `use_standby = false`. -/
theorem standby_gating_spec_witness :
    indexAction .GENERAL_ONLY false ⟨false, false, true⟩ = .skip :=
  standby_gating_spec.2 .GENERAL_ONLY ⟨false, false, true⟩ (by decide)

/-! ## Credential vault (`src/api/core/security.py`) -/

/-- The separator byte `"\x00"` used by `CredentialHandler`. -/
def sepChar : Char := Char.ofNat 0

/-- Embeds `security.py` line 27: `f"{user_id}\x00{password}"` — the
plaintext that `CredentialHandler.encrypt` builds before enciphering.
Strings are modelled as character lists. -/
def combineCreds (u p : List Char) : List Char := u ++ sepChar :: p

/-- Embeds `security.py` line 33: `decrypted.split("\x00", 1)` followed by
unpacking into two variables — split at the first occurrence of the
separator; `none` models the `ValueError` when no separator is present. -/
def splitOnceAt (sep : Char) : List Char → Option (List Char × List Char)
  | [] => none
  | c :: cs =>
      if c = sep then some ([], cs)
      else (splitOnceAt sep cs).map (fun q => (c :: q.1, q.2))

/-- Embeds `CredentialHandler.encrypt`: combine then encipher with the
process key.  The Fernet layer is abstract: `fenc` is the cipher under the
key generated at process start. -/
def encryptCreds {C : Type} (fenc : List Char → C) (u p : List Char) : C :=
  fenc (combineCreds u p)

/-- Embeds `CredentialHandler.decrypt`: decipher with the process key
(`fdec`, `none` modelling `DecryptionError`), then split at the first
separator. -/
def decryptCreds {C : Type} (fdec : C → Option (List Char)) (c : C) :
    Option (List Char × List Char) :=
  match fdec c with
  | none => none
  | some s => splitOnceAt sepChar s

/-- Splitting at the first separator undoes combining whenever the first
field is separator-free, whatever the second field holds. -/
theorem splitOnceAt_combine (u p : List Char) (hu : sepChar ∉ u) :
    splitOnceAt sepChar (combineCreds u p) = some (u, p) := by
  induction u with
  | nil => simp [combineCreds, splitOnceAt]
  | cons c cs ih =>
      have hc : c ≠ sepChar := fun h => hu (h ▸ List.mem_cons_self c cs)
      have hcs : sepChar ∉ cs := fun h => hu (List.mem_cons_of_mem c h)
      have ih' := ih hcs
      show (if c = sepChar then some ([], combineCreds cs p)
            else (splitOnceAt sepChar (combineCreds cs p)).map
              (fun q => (c :: q.1, q.2))) = some (c :: cs, p)
      rw [if_neg hc, ih']
      rfl

/-- C4: for every user id and password free of the separator byte, and every
cipher `fenc`/`fdec` that round-trips on bytes (the Fernet pair under the
key generated for the current process), decrypt after encrypt returns
exactly the original pair. -/
theorem credential_roundtrip {C : Type}
    (fenc : List Char → C) (fdec : C → Option (List Char))
    (hkey : ∀ b, fdec (fenc b) = some b)
    (u p : List Char) (hu : sepChar ∉ u) (hp : sepChar ∉ p) :
    decryptCreds fdec (encryptCreds fenc u p) = some (u, p) := by
  have := hp
  unfold decryptCreds encryptCreds
  rw [hkey]
  exact splitOnceAt_combine u p hu

/-- C4 witness: round-trip at a concrete separator-free pair, with the
identity cipher standing for Fernet under one key. -/
theorem credential_roundtrip_witness :
    decryptCreds (fun s => some s) (encryptCreds (fun s => s) ['a'] ['b'])
      = some (['a'], ['b']) :=
  credential_roundtrip (fun s => s) (fun s => some s) (fun _ => rfl)
    ['a'] ['b'] (by decide) (by decide)

/-- C10: the round-trip holds for every password, even one containing the
separator byte, because the decryptor splits only at the first separator —
only the user id must be separator-free. -/
theorem credential_roundtrip_nul_password {C : Type}
    (fenc : List Char → C) (fdec : C → Option (List Char))
    (hkey : ∀ b, fdec (fenc b) = some b)
    (u p : List Char) (hu : sepChar ∉ u) :
    decryptCreds fdec (encryptCreds fenc u p) = some (u, p) := by
  unfold decryptCreds encryptCreds
  rw [hkey]
  exact splitOnceAt_combine u p hu

/-- C10 witness: round-trip at a concrete password that contains the
separator byte. -/
theorem credential_roundtrip_nul_password_witness :
    decryptCreds (fun s => some s)
        (encryptCreds (fun s => s) ['a'] ['b', sepChar, 'c'])
      = some (['a'], ['b', sepChar, 'c']) :=
  credential_roundtrip_nul_password (fun s => s) (fun s => some s)
    (fun _ => rfl) ['a'] ['b', sepChar, 'c'] (by decide)

/-! ## Session registry (`src/api/core/session.py`) -/

/-- A registered session: the fields of `session.py`'s `Session` that the
registry claims touch (`expires_at`, plus an abstract payload standing for
the credentials/client/user-info state). -/
structure RegSession where
  expiresAt : Int
  payload : Nat
deriving DecidableEq

/-- Embeds `Session.is_expired` (lines 39-42):
`datetime.now(timezone.utc) > self.expires_at`. -/
def sessionIsExpired (now : Int) (s : RegSession) : Bool :=
  decide (s.expiresAt < now)

/-- The registry's dict `_sessions`, as an association list with unique
keys. -/
abbrev Registry := List (String × RegSession)

/-- Dict lookup `self._sessions.get(session_id)`. -/
def lookupAssoc {α : Type} : List (String × α) → String → Option α
  | [], _ => none
  | e :: rest, k => if e.1 = k then some e.2 else lookupAssoc rest k

/-- Embeds `SessionManager.get_session` (lines 176-181):
`if session and not session.is_expired: return session; return None`. -/
def getSession (reg : Registry) (now : Int) (sid : String) : Option RegSession :=
  match lookupAssoc reg sid with
  | some s => if sessionIsExpired now s = false then some s else none
  | none => none

/-- `get_session` with the registry state threaded explicitly: the method
body performs no assignment, so the registry passes through unchanged. -/
def getSessionSt (reg : Registry) (now : Int) (sid : String) :
    Option RegSession × Registry :=
  (getSession reg now sid, reg)

/-- C5: `get` returns a session iff that id is in the registry and
`now ≤ expiresAt` for it, and it mutates no registry state (the registry
after the call is the registry before it — in particular no expired entry
is removed and no `expiresAt` is extended). -/
theorem get_session_spec :
    ∀ (reg : Registry) (now : Int) (sid : String) (s : RegSession),
      (getSessionSt reg now sid).2 = reg
      ∧ (getSession reg now sid = some s
          ↔ (lookupAssoc reg sid = some s ∧ now ≤ s.expiresAt)) := by
  intro reg now sid s
  refine ⟨rfl, ?_⟩
  unfold getSession
  cases h : lookupAssoc reg sid with
  | none =>
      constructor
      · intro hs
        exact Option.noConfusion hs
      · rintro ⟨hss, _⟩
        exact Option.noConfusion hss
  | some s' =>
      by_cases he : s'.expiresAt < now
      · have hb : sessionIsExpired now s' = true := decide_eq_true he
        show (if sessionIsExpired now s' = false then some s' else none) = some s
          ↔ (some s' = some s ∧ now ≤ s.expiresAt)
        rw [if_neg (by simp [hb])]
        constructor
        · intro hs
          exact Option.noConfusion hs
        · rintro ⟨hss, hle⟩
          injection hss with h2
          subst h2
          omega
      · have hb : sessionIsExpired now s' = false :=
          decide_eq_false he
        show (if sessionIsExpired now s' = false then some s' else none) = some s
          ↔ (some s' = some s ∧ now ≤ s.expiresAt)
        rw [if_pos hb]
        constructor
        · intro hss
          refine ⟨hss, ?_⟩
          injection hss with h2
          subst h2
          omega
        · exact And.left

/-- Embeds `SessionManager._destroy_session_internal` restricted to the
registry map (lines 199-203 and 226): `self._sessions.pop(session_id,
None)` — `(False, unchanged)` when the id is absent, else `(True, registry
without that key)`.  (`destroy_session` is the same operation under the
registry lock; the job/websocket/logout cleanup acts only on the removed
session's own resources.) -/
def destroySessionInternal (reg : Registry) (sid : String) : Bool × Registry :=
  match lookupAssoc reg sid with
  | none => (false, reg)
  | some _ => (true, reg.filter (fun e => e.1 != sid))

/-- After filtering a key out, looking it up yields nothing. -/
theorem lookupAssoc_filter_ne (reg : Registry) (sid : String) :
    lookupAssoc (reg.filter (fun e => e.1 != sid)) sid = none := by
  induction reg with
  | nil => rfl
  | cons e rest ih =>
      rw [List.filter_cons]
      by_cases h : e.1 = sid
      · rw [if_neg (by simp [h])]
        exact ih
      · rw [if_pos (by simp [h])]
        show (if e.1 = sid then some e.2
              else lookupAssoc (rest.filter (fun e => e.1 != sid)) sid) = none
        rw [if_neg h]
        exact ih

/-- C9: `destroySession` returns true iff a session with that id was found
(and then removed: the id no longer resolves afterwards), and a second call
on the same id returns false and changes nothing — idempotent in result. -/
theorem destroy_session_spec :
    ∀ (reg : Registry) (sid : String),
      ((destroySessionInternal reg sid).1 = true
          ↔ (lookupAssoc reg sid).isSome = true)
      ∧ lookupAssoc (destroySessionInternal reg sid).2 sid = none
      ∧ destroySessionInternal (destroySessionInternal reg sid).2 sid
          = (false, (destroySessionInternal reg sid).2) := by
  intro reg sid
  unfold destroySessionInternal
  cases h : lookupAssoc reg sid with
  | none => simp [h]
  | some s => simp [h, lookupAssoc_filter_ne]

/-! ## Job cancellation (`JobService.cancel_job`, `job_service.py` 153-178) -/

/-- The fields of `JobData` that `cancel_job` reads or writes: `status`,
the `cancelled` flag, `completed_at`, and whether `job.task` exists and is
not done. -/
structure EngineJob where
  status : JobStatus
  cancelled : Bool
  completedAt : Option Int
  taskActive : Bool
deriving DecidableEq

/-- What one `cancel_job` call produces: its return value, the jobs map
afterwards, whether `task.cancel()` was invoked, and the event types
broadcast. -/
structure CancelOutcome where
  returned : Bool
  jobs : List (String × EngineJob)
  stopSignalled : Bool
  events : List String
deriving DecidableEq

/-- Pointwise update of the entry under a key (the Python code mutates the
`JobData` object held in the dict in place). -/
def updateAssoc {α : Type} (reg : List (String × α)) (k : String) (v : α) :
    List (String × α) :=
  reg.map (fun e => if e.1 = k then (k, v) else e)

/-- A status is non-terminal exactly when it is PENDING or RUNNING. -/
theorem isTerminal_eq_false (s : JobStatus) :
    isTerminal s = false ↔ (s = .pending ∨ s = .running) := by
  cases s <;> simp [isTerminal]

/-- Embeds `JobService.cancel_job` (lines 153-178): absent id → `False`;
status outside `(PENDING, RUNNING)` → `False`; otherwise set `cancelled`,
set status `CANCELLED`, record `completed_at = now`, call `task.cancel()`
when the task exists and is not done, broadcast `JOB_CANCELLED`, return
`True`. -/
def cancelJobOp (jobs : List (String × EngineJob)) (jid : String) (now : Int) :
    CancelOutcome :=
  match lookupAssoc jobs jid with
  | none => ⟨false, jobs, false, []⟩
  | some j =>
      if j.status = .pending ∨ j.status = .running then
        ⟨true,
         updateAssoc jobs jid ⟨.cancelled, true, some now, j.taskActive⟩,
         j.taskActive, ["job_cancelled"]⟩
      else ⟨false, jobs, false, []⟩

/-- C6: `cancelJob` returns false and changes nothing when the job is
absent or already terminal; on a PENDING/RUNNING job it sets the cancel
flag, moves the status to CANCELLED, records a completion time, signals
the execution unit exactly when one is live, emits `job_cancelled`, and
returns true. -/
theorem cancel_job_spec :
    ∀ (jobs : List (String × EngineJob)) (jid : String) (now : Int),
      (lookupAssoc jobs jid = none →
        cancelJobOp jobs jid now = ⟨false, jobs, false, []⟩)
      ∧ (∀ j, lookupAssoc jobs jid = some j → isTerminal j.status = true →
          cancelJobOp jobs jid now = ⟨false, jobs, false, []⟩)
      ∧ (∀ j, lookupAssoc jobs jid = some j → isTerminal j.status = false →
          cancelJobOp jobs jid now =
            ⟨true,
             updateAssoc jobs jid ⟨.cancelled, true, some now, j.taskActive⟩,
             j.taskActive, ["job_cancelled"]⟩) := by
  intro jobs jid now
  refine ⟨?_, ?_, ?_⟩
  · intro h
    unfold cancelJobOp
    rw [h]
  · intro j h ht
    have hterm : ¬(j.status = .pending ∨ j.status = .running) := by
      intro hor
      rw [(isTerminal_eq_false j.status).2 hor] at ht
      exact Bool.noConfusion ht
    unfold cancelJobOp
    rw [h]
    exact if_neg hterm
  · intro j h ht
    have hok := (isTerminal_eq_false j.status).1 ht
    unfold cancelJobOp
    rw [h]
    exact if_pos hok

/-- C6 witness: cancelling a concrete RUNNING job with a live task. -/
theorem cancel_job_spec_witness :
    cancelJobOp [("j1", ⟨.running, false, none, true⟩)] "j1" 5 =
      ⟨true,
       updateAssoc [("j1", ⟨.running, false, none, true⟩)] "j1"
         ⟨.cancelled, true, some 5, true⟩,
       true, ["job_cancelled"]⟩ :=
  (cancel_job_spec [("j1", ⟨.running, false, none, true⟩)] "j1" 5).2.2
    ⟨.running, false, none, true⟩ rfl rfl

/-! ## Passenger counts (`src/api/models/schemas.py` 13-37, 114-126) -/

/-- The six passenger buckets of `PassengerCount`, as unbounded integers
before validation (pydantic validates each `int` field). -/
structure PassengerCount where
  adult : Int
  child : Int
  senior : Int
  disability_1_3 : Int
  disability_4_6 : Int
  toddler : Int
deriving DecidableEq

/-- Embeds one `Field(ge=0, le=9)` bucket constraint. -/
def passengerFieldOk (n : Int) : Bool :=
  decide (0 ≤ n) && decide (n ≤ 9)

/-- Embeds the whole validation pydantic runs on a `PassengerCount` value —
and hence everything `JobCreateRequest` (whose `passengers` field carries no
further validator) checks about passengers: each of the six buckets is in
`0..9`.  No code path calls `validate_total`. -/
def passengerCountAccepted (p : PassengerCount) : Bool :=
  passengerFieldOk p.adult && passengerFieldOk p.child
    && passengerFieldOk p.senior && passengerFieldOk p.disability_1_3
    && passengerFieldOk p.disability_4_6 && passengerFieldOk p.toddler

/-- Embeds the `total` property of `PassengerCount`. -/
def passengerTotal (p : PassengerCount) : Int :=
  p.adult + p.child + p.senior + p.disability_1_3 + p.disability_4_6
    + p.toddler

/-- Embeds `PassengerCount.validate_total`: `1 <= self.total <= 9`.  The
method is defined but never invoked on any request path. -/
def validate_total (p : PassengerCount) : Bool :=
  decide (1 ≤ passengerTotal p) && decide (passengerTotal p ≤ 9)

/-- C8: the code does not enforce the claimed total bounds — a request with
all six buckets zero (total 0) and one with all six buckets nine (total 54)
both pass the validation actually executed, while `validate_total`, which
would reject them, is dead code. -/
theorem passenger_total_not_enforced :
    passengerCountAccepted ⟨0, 0, 0, 0, 0, 0⟩ = true
    ∧ validate_total ⟨0, 0, 0, 0, 0, 0⟩ = false
    ∧ passengerCountAccepted ⟨9, 9, 9, 9, 9, 9⟩ = true
    ∧ passengerTotal ⟨9, 9, 9, 9, 9, 9⟩ = 54 := by
  refine ⟨rfl, rfl, rfl, rfl⟩

/-! ## One-shot re-authentication (`job_service.py` 180-206, 256-287,
381-427) -/

/-- What one provider call produces: a value, the distinguished
re-authentication condition (`SRTLoginError` / `NeedToLoginError`), or a
classified `RailServiceError` with its code. -/
inductive ProvCall (α : Type) where
  | ok (v : α)
  | needsLogin (msg : String)
  | railError (code msg : String)
deriving DecidableEq

/-- The session state the re-login path touches: the stored ciphertext and
the authenticated client handle. -/
structure EngineSession where
  encryptedCreds : List Char
  railClientId : Nat
deriving DecidableEq

/-- Embeds `JobService._relogin_if_needed` (lines 180-206): decrypt the
stored credentials, re-login, replace the session's client handle; returns
`False` (session untouched) when any of those raises.  The cipher under the
process key is `fdec`; `login` is `RailService.login`, `none` modelling a
raised exception. -/
def reloginIfNeeded (fdec : List Char → Option (List Char))
    (login : List Char → List Char → Option Nat) (s : EngineSession) :
    Bool × EngineSession :=
  match decryptCreds fdec s.encryptedCreds with
  | none => (false, s)
  | some (u, p) =>
      match login u p with
      | none => (false, s)
      | some h => (true, { s with railClientId := h })

/-- The trace of the call-with-relogin fragment: what escapes the fragment,
how many provider-operation calls were made, how many re-authentication
cycles ran, and the session afterwards. -/
structure CallTrace (α : Type) where
  result : ProvCall α
  opCalls : Nat
  reloginCycles : Nat
  session : EngineSession
deriving DecidableEq

/-- Embeds the retry fragment wrapped around both provider operations of
`_run_booking_loop` — search (lines 256-287) and reserve/reserve-standby
(lines 381-427), which duplicate the same control flow: call the
operation; on the re-authentication condition run `_relogin_if_needed`
once, and either retry the same operation exactly once (whatever it then
produces escapes as is) or, when re-login failed, raise
`RailServiceError("SESSION_EXPIRED", ...)`. -/
def callWithRelogin {α : Type} (fdec : List Char → Option (List Char))
    (login : List Char → List Char → Option Nat) (s : EngineSession)
    (callOp : EngineSession → ProvCall α) : CallTrace α :=
  match callOp s with
  | .ok v => ⟨.ok v, 1, 0, s⟩
  | .railError c m => ⟨.railError c m, 1, 0, s⟩
  | .needsLogin _ =>
      match reloginIfNeeded fdec login s with
      | (true, s') => ⟨callOp s', 2, 1, s'⟩
      | (false, _) =>
          ⟨.railError "SESSION_EXPIRED" "세션이 만료되어 재로그인에 실패했습니다.", 1, 1, s⟩

/-- Embeds the retryable set of the outer handler (`job_service.py` line
491): `("RESERVE_SOLD_OUT", "TRAIN_SEARCH_NO_RESULTS")`. -/
def retryableCodes : List String := ["RESERVE_SOLD_OUT", "TRAIN_SEARCH_NO_RESULTS"]

/-- Embeds how an outcome escaping the fragment settles the attempt
(`job_service.py` 490-524 and the catch-all 536-539): a value proceeds
(job stays RUNNING), a retryable `RailServiceError` keeps the loop alive,
any other code — and the unclassified re-authentication exception — makes
the job FAILED. -/
def outerHandlerStatus {α : Type} : ProvCall α → JobStatus
  | .ok _ => .running
  | .railError c _ => if retryableCodes.contains c then .running else .failed
  | .needsLogin _ => .failed

/-- C7: whenever a provider call raises the re-authentication condition,
exactly one re-authentication cycle runs; if it succeeds the same operation
is retried exactly once (two operation calls in all, its outcome escaping
unchanged, against the session holding the replaced client handle); if
re-login fails the fragment raises `SESSION_EXPIRED`, a code outside the
retryable set, which terminates the job as FAILED. -/
theorem relogin_retry_spec {α : Type} (fdec : List Char → Option (List Char))
    (login : List Char → List Char → Option Nat) (s : EngineSession)
    (callOp : EngineSession → ProvCall α) (m : String)
    (hfirst : callOp s = .needsLogin m) :
    (callWithRelogin fdec login s callOp).reloginCycles = 1
    ∧ (∀ s', reloginIfNeeded fdec login s = (true, s') →
        callWithRelogin fdec login s callOp =
          ⟨callOp s', 2, 1, s'⟩)
    ∧ ((reloginIfNeeded fdec login s).1 = false →
        (callWithRelogin fdec login s callOp).result =
          .railError "SESSION_EXPIRED" "세션이 만료되어 재로그인에 실패했습니다."
        ∧ retryableCodes.contains "SESSION_EXPIRED" = false
        ∧ outerHandlerStatus
            (callWithRelogin fdec login s callOp).result = .failed) := by
  refine ⟨?_, ?_, ?_⟩
  · unfold callWithRelogin
    rw [hfirst]
    rcases hr : reloginIfNeeded fdec login s with ⟨b, s'⟩
    cases b <;> rfl
  · intro s' hr
    unfold callWithRelogin
    rw [hfirst, hr]
  · intro hfail
    rcases hr : reloginIfNeeded fdec login s with ⟨b, s'⟩
    rw [hr] at hfail
    cases b
    · unfold callWithRelogin
      rw [hfirst, hr]
      exact ⟨rfl, rfl, rfl⟩
    · exact Bool.noConfusion hfail

/-- C7 witness: a concrete run where the first search hits the
re-authentication condition, re-login succeeds (decrypt yields the stored
pair, login issues handle 7), and the retried search succeeds. -/
theorem relogin_retry_spec_witness :
    (callWithRelogin (fun s => some s) (fun _ _ => some 7)
        ⟨combineCreds ['a'] ['b'], 0⟩
        (fun s => if s.railClientId = 7 then .ok 42 else .needsLogin "expired")
      ).reloginCycles = 1
    ∧ callWithRelogin (fun s => some s) (fun _ _ => some 7)
        ⟨combineCreds ['a'] ['b'], 0⟩
        (fun s => if s.railClientId = 7 then .ok 42 else .needsLogin "expired") =
      ⟨.ok 42, 2, 1, ⟨combineCreds ['a'] ['b'], 7⟩⟩ := by
  have h := relogin_retry_spec (α := Nat) (fun s => some s) (fun _ _ => some 7)
    ⟨combineCreds ['a'] ['b'], 0⟩
    (fun s => if s.railClientId = 7 then .ok 42 else .needsLogin "expired")
    "expired" (by decide)
  refine ⟨h.1, ?_⟩
  have h2 := h.2.1 ⟨combineCreds ['a'] ['b'], 7⟩ (by decide)
  rw [h2]
  rfl

/-! ## Job status state machine (`job_service.py` 112-178, 208-556)

The engine and `cancel_job` run on one asyncio event loop, so each code
region between suspension points executes atomically, and
`task.cancel()` makes the booking coroutine raise `CancelledError` at its
next resumption instead of continuing.  `JStep` has one constructor per
atomic region that mutates the job, with each guard a fact the control
flow establishes at that region: the booking task only starts (line 215)
if it was not cancelled first; the loop body (attempt counter, success
block, fatal-failure block) runs only while the loop is live — status
`RUNNING` and the `cancelled` flag unset (after `cancel_job` sets the flag
it also cancels the task, so the body never resumes); `cancel_job`
(153-178) acts only on a PENDING/RUNNING job; and the `CancelledError`
handler (530-534) runs only in a task that was signalled, mutating only
when the `cancelled` flag is unset. -/

/-- The mutable fields of `JobData` that the loop and `cancel_job` touch,
plus whether `task.cancel()` has been invoked on the job's task. -/
structure LoopJob where
  status : JobStatus
  cancelled : Bool
  taskSignalled : Bool
  attemptCount : Nat
  startedAt : Option Int
  completedAt : Option Int
  result : Option Nat
  error : Option String
deriving DecidableEq

/-- A job as `create_job` stores it: status PENDING, nothing recorded. -/
def initJob : LoopJob := ⟨.pending, false, false, 0, none, none, none, none⟩

/-- One atomic mutation of a job by the engine or by `cancel_job`. -/
inductive JStep : LoopJob → LoopJob → Prop where
  /-- Lines 215-216: the booking task starts — status `RUNNING`, start
  time recorded. -/
  | loopStart (j : LoopJob) (t : Int)
      (hc : j.cancelled = false) (hs : j.status = .pending) :
      JStep j { j with status := .running, startedAt := some t }
  /-- Lines 252-253: `while not job.cancelled: job.attempt_count += 1`. -/
  | attemptInc (j : LoopJob)
      (hc : j.cancelled = false) (hs : j.status = .running) :
      JStep j { j with attemptCount := j.attemptCount + 1 }
  /-- Lines 430-432: a reservation succeeded — status `SUCCESS`,
  completion time and result recorded, then the loop returns. -/
  | succeed (j : LoopJob) (t : Int) (r : Nat)
      (hc : j.cancelled = false) (hs : j.status = .running) :
      JStep j { j with status := .success, completedAt := some t, result := some r }
  /-- Lines 493-495 / 537-539: a fatal error — status `FAILED`, completion
  time and the error recorded. -/
  | failFatal (j : LoopJob) (t : Int) (msg : String)
      (hc : j.cancelled = false) (hs : j.status = .running) :
      JStep j { j with status := .failed, completedAt := some t, error := some msg }
  /-- Lines 153-178, `cancel_job` past its guards: cancel flag set, status
  `CANCELLED`, completion time recorded, task signalled. -/
  | cancelJobCall (j : LoopJob) (t : Int)
      (hs : j.status = .pending ∨ j.status = .running) :
      JStep j { j with cancelled := true, status := .cancelled,
                       completedAt := some t, taskSignalled := true }
  /-- Lines 530-534: the `CancelledError` handler of a signalled task,
  which mutates only when the `cancelled` flag is unset. -/
  | cancelHandler (j : LoopJob) (t : Int)
      (hsig : j.taskSignalled = true) (hc : j.cancelled = false) :
      JStep j { j with status := .cancelled, completedAt := some t }

/-- A run of the job from creation, recording the status each time it
changes: `JRun j l` says the job can reach state `j` with `.pending :: l`
as its sequence of distinct successive status values. -/
inductive JRun : LoopJob → List JobStatus → Prop where
  | init : JRun initJob []
  | stepSame {j : LoopJob} {l : List JobStatus} {j' : LoopJob} :
      JRun j l → JStep j j' → j'.status = j.status → JRun j' l
  | stepNew {j : LoopJob} {l : List JobStatus} {j' : LoopJob} :
      JRun j l → JStep j j' → j'.status ≠ j.status → JRun j' (l ++ [j'.status])

/-- The status sequences the claim allows: the nonempty prefixes of
`PENDING, RUNNING, T` for a terminal `T`. -/
def specSeqs : List (List JobStatus) :=
  [[.pending], [.pending, .running],
   [.pending, .running, .success],
   [.pending, .running, .failed],
   [.pending, .running, .cancelled]]

/-- The status sequences the code allows: the claim's, plus direct
cancellation of a job that never started running. -/
def codeSeqs : List (List JobStatus) :=
  specSeqs ++ [[.pending, .cancelled]]

/-- Flag coherence: a signalled task was cancelled through `cancel_job`,
and a cancelled job already shows status `CANCELLED`. -/
def flagsOk (j : LoopJob) : Prop :=
  (j.taskSignalled = true → j.cancelled = true)
    ∧ (j.cancelled = true → j.status = .cancelled)

/-- Every step preserves flag coherence. -/
theorem jstep_flagsOk {j j' : LoopJob} (h : JStep j j') (hf : flagsOk j) :
    flagsOk j' := by
  cases h with
  | loopStart t hc hs =>
      refine ⟨fun hsig => ?_, fun hcan => ?_⟩
      · exact hf.1 hsig
      · exact absurd hcan (by simp [hc])
  | attemptInc hc hs =>
      exact hf
  | succeed t r hc hs =>
      refine ⟨fun hsig => ?_, fun hcan => ?_⟩
      · exact hf.1 hsig
      · exact absurd hcan (by simp [hc])
  | failFatal t msg hc hs =>
      refine ⟨fun hsig => ?_, fun hcan => ?_⟩
      · exact hf.1 hsig
      · exact absurd hcan (by simp [hc])
  | cancelJobCall t hs =>
      exact ⟨fun _ => rfl, fun _ => rfl⟩
  | cancelHandler t hsig hc =>
      exact absurd (hf.1 hsig) (by simp [hc])

/-- Shape of every reachable state and its status sequence: the flags are
coherent, the sequence ends at the current status, and the pair
(status, sequence) is one of the six the code can produce. -/
theorem jrun_shape {j : LoopJob} {l : List JobStatus} (h : JRun j l) :
    flagsOk j
    ∧ ((j.status = .pending ∧ l = [])
      ∨ (j.status = .running ∧ l = [.running])
      ∨ (j.status = .success ∧ l = [.running, .success])
      ∨ (j.status = .failed ∧ l = [.running, .failed])
      ∨ (j.status = .cancelled ∧ (l = [.running, .cancelled] ∨ l = [.cancelled]))) := by
  induction h with
  | init =>
      exact ⟨⟨fun h => Bool.noConfusion h, fun h => Bool.noConfusion h⟩,
        Or.inl ⟨rfl, rfl⟩⟩
  | stepSame hrun hstep heq ih =>
      refine ⟨jstep_flagsOk hstep ih.1, ?_⟩
      cases hstep with
      | loopStart t hc hs =>
          rw [hs] at heq
          exact absurd heq (by simp)
      | attemptInc hc hs =>
          exact ih.2
      | succeed t r hc hs =>
          rw [hs] at heq
          exact absurd heq (by simp)
      | failFatal t msg hc hs =>
          rw [hs] at heq
          exact absurd heq (by simp)
      | cancelJobCall t hs =>
          rcases hs with hs | hs <;> rw [hs] at heq <;> exact absurd heq (by simp)
      | cancelHandler t hsig hc =>
          exact absurd (ih.1.1 hsig) (by simp [hc])
  | stepNew hrun hstep hne ih =>
      refine ⟨jstep_flagsOk hstep ih.1, ?_⟩
      cases hstep with
      | loopStart t hc hs =>
          rcases ih.2 with ⟨_, hl⟩ | ⟨h2, _⟩ | ⟨h2, _⟩ | ⟨h2, _⟩ | ⟨h2, _⟩
          · subst hl
            exact Or.inr (Or.inl ⟨rfl, rfl⟩)
          all_goals rw [h2] at hs; exact absurd hs (by simp)
      | attemptInc hc hs =>
          exact absurd rfl hne
      | succeed t r hc hs =>
          rcases ih.2 with ⟨h2, _⟩ | ⟨_, hl⟩ | ⟨h2, _⟩ | ⟨h2, _⟩ | ⟨h2, _⟩
          · rw [h2] at hs; exact absurd hs (by simp)
          · subst hl
            exact Or.inr (Or.inr (Or.inl ⟨rfl, rfl⟩))
          all_goals rw [h2] at hs; exact absurd hs (by simp)
      | failFatal t msg hc hs =>
          rcases ih.2 with ⟨h2, _⟩ | ⟨_, hl⟩ | ⟨h2, _⟩ | ⟨h2, _⟩ | ⟨h2, _⟩
          · rw [h2] at hs; exact absurd hs (by simp)
          · subst hl
            exact Or.inr (Or.inr (Or.inr (Or.inl ⟨rfl, rfl⟩)))
          all_goals rw [h2] at hs; exact absurd hs (by simp)
      | cancelJobCall t hs =>
          rcases ih.2 with ⟨_, hl⟩ | ⟨_, hl⟩ | ⟨h2, _⟩ | ⟨h2, _⟩ | ⟨h2, _⟩
          · subst hl
            exact Or.inr (Or.inr (Or.inr (Or.inr ⟨rfl, Or.inr rfl⟩)))
          · subst hl
            exact Or.inr (Or.inr (Or.inr (Or.inr ⟨rfl, Or.inl rfl⟩)))
          all_goals
            rcases hs with hs | hs <;> rw [h2] at hs <;> exact absurd hs (by simp)
      | cancelHandler t hsig hc =>
          exact absurd (ih.1.1 hsig) (by simp [hc])

/-- C3 counterexample: `cancel_job` on a job that is still PENDING yields
the status sequence `PENDING, CANCELLED`, which is not a prefix of
`PENDING, RUNNING, T` for any terminal `T`. -/
theorem job_status_claim_cex :
    JRun ⟨.cancelled, true, true, 0, none, some 0, none, none⟩
        [JobStatus.cancelled]
    ∧ ([JobStatus.pending, JobStatus.cancelled] ∈ specSeqs) = False := by
  constructor
  · exact JRun.stepNew JRun.init
      (JStep.cancelJobCall initJob 0 (Or.inl rfl)) (by decide)
  · simp only [eq_iff_iff, iff_false]
    decide

/-- C3 amended: along every interleaving of engine steps and `cancelJob`
calls, the status sequence is a prefix of `PENDING, RUNNING, T` with `T`
terminal, or `PENDING, CANCELLED` when the job is cancelled before its
loop starts; the three terminal states are absorbing — from a reachable
terminal state no step (and hence no field mutation) is possible at
all. -/
theorem job_status_machine_safe {j : LoopJob} {l : List JobStatus}
    (h : JRun j l) :
    (JobStatus.pending :: l) ∈ codeSeqs
    ∧ (isTerminal j.status = true → ∀ j', ¬ JStep j j') := by
  have hs := jrun_shape h
  constructor
  · rcases hs.2 with ⟨_, hl⟩ | ⟨_, hl⟩ | ⟨_, hl⟩ | ⟨_, hl⟩ | ⟨_, hl | hl⟩ <;>
      subst hl <;> decide
  · intro hterm j' hstep
    cases hstep with
    | loopStart t hc hs2 =>
        rw [hs2] at hterm
        exact absurd hterm (by decide)
    | attemptInc hc hs2 =>
        rw [hs2] at hterm
        exact absurd hterm (by decide)
    | succeed t r hc hs2 =>
        rw [hs2] at hterm
        exact absurd hterm (by decide)
    | failFatal t msg hc hs2 =>
        rw [hs2] at hterm
        exact absurd hterm (by decide)
    | cancelJobCall t hs2 =>
        rcases hs2 with hs2 | hs2 <;> rw [hs2] at hterm <;>
          exact absurd hterm (by decide)
    | cancelHandler t hsig hc =>
        exact absurd (hs.1.1 hsig) (by simp [hc])

/-- C3 witness: the run PENDING → RUNNING → SUCCESS has a status sequence
in the code's set, and its final state admits no further step. -/
theorem job_status_machine_safe_witness :
    (JobStatus.pending :: [JobStatus.running, JobStatus.success]) ∈ codeSeqs
    ∧ (isTerminal (⟨.success, false, false, 0, some 1, some 2, some 9, none⟩ :
          LoopJob).status = true →
        ∀ j', ¬ JStep ⟨.success, false, false, 0, some 1, some 2, some 9, none⟩ j') :=
  job_status_machine_safe
    (JRun.stepNew
      (JRun.stepNew JRun.init (JStep.loopStart initJob 1 rfl rfl) (by decide))
      (JStep.succeed ⟨.running, false, false, 0, some 1, none, none, none⟩ 2 9 rfl rfl)
      (by decide))

end MacroApi
